import Mathlib

/-
Verification of the trace-agent Concentrator (agent/concentrator.go).

The Go code is shallowly embedded: channels become explicit logs
(a list of values sent so far plus a closed flag), the two-slot
bucket array becomes a function from the Go int index to an optional
bucket, `model.Now()` becomes an explicit time parameter, and a nil
pointer dereference becomes `none` (Option models the Go panic).
The external collaborator `model.StatsBucket` is not part of this
repository; it is modelled from the spec, which treats it as an
accumulator with a Start/Duration window descriptor, a HandleSpan
operation and a terminal Encode step.
-/

namespace Raclette

/-- Modelled from the spec: `model.Span` is missing from the sources; the spec
treats a span as an opaque record, so it is represented by an opaque token. -/
abbrev Span := Nat

/-- Modelled from the spec: `model.StatsBucket` is missing from the sources.
Per the spec it is an accumulator over one time window with a `Start`
(window begin timestamp) and a `Duration` set at close time (`none` while the
bucket is still open), the spans it has absorbed, an `Encode` freeze marker,
and the approximation bound `eps` passed opaquely at construction. -/
structure StatsBucket where
  start : Int
  duration : Option Int
  spans : List Span
  encoded : Bool
  eps : Int
deriving DecidableEq, Repr

/-- Modelled from the spec: `model.NewStatsBucket(eps)` allocates a fresh, open,
empty bucket whose window begins now. -/
def NewStatsBucket (eps : Int) (now : Int) : StatsBucket :=
  { start := now, duration := none, spans := [], encoded := false, eps := eps }

/-- Modelled from the spec: `HandleSpan` absorbs one span's contribution into
the bucket. -/
def StatsBucket.HandleSpan (b : StatsBucket) (s : Span) : StatsBucket :=
  { b with spans := b.spans ++ [s] }

/-- Modelled from the spec: `Encode` freezes the bucket for transmission. -/
def StatsBucket.Encode (b : StatsBucket) : StatsBucket :=
  { b with encoded := true }

/-- Stamping of the window end, line 87 of concentrator.go:
`Duration = model.Now() - Start`. -/
def stampDuration (now : Int) (b : StatsBucket) : StatsBucket :=
  { b with duration := some (now - b.start) }

/-- A Go channel, seen from this core: the values sent on it so far and
whether it has been closed. -/
structure Chan (α : Type) where
  sent : List α
  closed : Bool
deriving DecidableEq, Repr

/-- The Concentrator struct of concentrator.go, lines 22-39.  The channel
handles are embedded as the channel states themselves; `exit` is the exit
signal, `exitGroup` the wait-group counter; `openBucket` is the two-slot
array indexed by a Go int (slots other than 0 and 1 do not exist in the
array and are never touched, which theorem spec_C9 makes precise). -/
structure Concentrator where
  inSpans : List Span
  outStats : Chan StatsBucket
  outSpans : Chan Span
  exit : Bool
  exitGroup : Int
  bucketDuration : Int
  eps : Int
  openBucket : Int → Option StatsBucket
  currentBucket : Int

/-- NewConcentrator, lines 42-49: only configuration and exit coordination
are set; the remaining fields keep their Go zero values (nil channels ↦
empty logs, nil bucket pointers, index 0). -/
def NewConcentrator (bucketDuration : Int) (eps : Int) (exit : Bool)
    (exitGroup : Int) : Concentrator :=
  { inSpans := []
    outStats := { sent := [], closed := false }
    outSpans := { sent := [], closed := false }
    exit := exit
    exitGroup := exitGroup
    bucketDuration := bucketDuration
    eps := eps
    openBucket := fun _ => none
    currentBucket := 0 }

/-- Init, lines 52-56: binds the three channel fields. -/
def Concentrator.Init (c : Concentrator) (inSpans : List Span)
    (outStats : Chan StatsBucket) (outSpans : Chan Span) : Concentrator :=
  { c with inSpans := inSpans, outStats := outStats, outSpans := outSpans }

/-- Write to one slot of the two-slot bucket array. -/
def updSlot (f : Int → Option StatsBucket) (i : Int) (v : Option StatsBucket) :
    Int → Option StatsBucket :=
  fun j => if j = i then v else f j

/-- The state mutation of Start, line 61: the first bucket is allocated
manually into slot 0 (the two workers it launches are modelled by the run
functions below). -/
def Concentrator.Start (c : Concentrator) (now : Int) : Concentrator :=
  { c with openBucket := updSlot c.openBucket 0 (some (NewStatsBucket c.eps now)) }

/-- HandleNewSpan, lines 77-79: `openBucket[currentBucket].HandleSpan(s)`.
A nil bucket pointer at the current slot would be a Go panic, returned as
`none`. -/
def Concentrator.HandleNewSpan (c : Concentrator) (s : Span) : Option Concentrator :=
  match c.openBucket c.currentBucket with
  | none => none
  | some b =>
      some { c with openBucket := updSlot c.openBucket c.currentBucket (some (b.HandleSpan s)) }

/-- flush, lines 81-97: allocate a fresh bucket into `(currentBucket+1) % 2`,
stamp the outgoing bucket's Duration (a nil pointer there would panic, hence
the bind), flip the index, then encode and send the bucket in the other slot
if it is non-nil.  The send appends the encoded copy to the outStats log. -/
def Concentrator.flush (c : Concentrator) (now : Int) : Option Concentrator :=
  let nextBucket := (c.currentBucket + 1) % 2
  let c1 : Concentrator :=
    { c with openBucket := updSlot c.openBucket nextBucket (some (NewStatsBucket c.eps now)) }
  (c1.openBucket c1.currentBucket).bind fun b =>
    let c2 : Concentrator :=
      { c1 with openBucket := updSlot c1.openBucket c1.currentBucket (some (stampDuration now b)) }
    let c3 : Concentrator := { c2 with currentBucket := nextBucket }
    let bucketToSend := (c3.currentBucket + 1) % 2
    some (match c3.openBucket bucketToSend with
      | none => c3
      | some bs =>
          { c3 with
              openBucket := updSlot c3.openBucket bucketToSend (some bs.Encode)
              outStats := { c3.outStats with sent := c3.outStats.sent ++ [bs.Encode] } })

/-- The body of the ingestion loop of Start, lines 65-68: handle the span,
then forward the identical span on the outbound span channel. -/
def Concentrator.ingestOne (c : Concentrator) (s : Span) : Option Concentrator :=
  (c.HandleNewSpan s).map fun c' =>
    { c' with outSpans := { c'.outSpans with sent := c'.outSpans.sent ++ [s] } }

/-- The ingestion worker of Start, lines 63-69: consume the inbound spans in
order until the producer closes the channel (the end of the list). -/
def Concentrator.ingestLoop (c : Concentrator) : List Span → Option Concentrator
  | [] => some c
  | s :: rest => (c.ingestOne s).bind fun c' => c'.ingestLoop rest

/-- The exitGroup.Add(1) at the top of bucketCloser, line 101. -/
def Concentrator.closerAdd (c : Concentrator) : Concentrator :=
  { c with exitGroup := c.exitGroup + 1 }

/-- The exit case of bucketCloser, lines 105-113: no flush (line 108 is
commented out in the source), close the outbound span channel, signal Done
on the exit group, return. -/
def Concentrator.closerExit (c : Concentrator) : Concentrator :=
  { c with outSpans := { c.outSpans with closed := true }
           exitGroup := c.exitGroup - 1 }

/-- An event observed by the bucketCloser select: a ticker tick at some
wall-clock time, or the exit signal. -/
inductive CloserEv where
  | tick (now : Int)
  | exitSig
deriving DecidableEq, Repr

/-- The select loop of bucketCloser, lines 103-118: a tick flushes and loops,
the exit signal runs the exit case and returns (events after it are never
looked at). -/
def Concentrator.bucketCloserLoop (c : Concentrator) : List CloserEv → Option Concentrator
  | [] => some c
  | CloserEv.exitSig :: _ => some c.closerExit
  | CloserEv.tick now :: rest => (c.flush now).bind fun c' => c'.bucketCloserLoop rest

/-- bucketCloser, lines 99-119: Add(1) on the exit group, then the select
loop. -/
def Concentrator.bucketCloser (c : Concentrator) (evs : List CloserEv) : Option Concentrator :=
  c.closerAdd.bucketCloserLoop evs

/-- A sequence of consecutive flushes (the tick case only). -/
def Concentrator.runTicks (c : Concentrator) : List Int → Option Concentrator
  | [] => some c
  | t :: ts => (c.flush t).bind fun c' => c'.runTicks ts

/-- One event of a whole-system execution: a span arriving on the inbound
channel (handled by the ingestion worker), a ticker tick (handled by
bucketCloser with a flush), or the exit signal (bucketCloser's exit case). -/
inductive SysEv where
  | span (s : Span)
  | tick (now : Int)
  | exitSig
deriving DecidableEq, Repr

/-- The effect of a single system event on the Concentrator state. -/
def Concentrator.sysStep (c : Concentrator) : SysEv → Option Concentrator
  | SysEv.span s => c.ingestOne s
  | SysEv.tick now => c.flush now
  | SysEv.exitSig => some c.closerExit

/-- A whole-system execution: the events in the order the two workers
process them. -/
def Concentrator.sysRun (c : Concentrator) : List SysEv → Option Concentrator
  | [] => some c
  | e :: es => (c.sysStep e).bind fun c' => c'.sysRun es

/-- A Concentrator fresh out of NewConcentrator and Init, with empty, open
channels, before Start. -/
def mkInit (bd eps : Int) : Concentrator :=
  (NewConcentrator bd eps false 0).Init [] { sent := [], closed := false }
    { sent := [], closed := false }

/-- The wall-clock times of the tick events of an execution, in order. -/
def tickTimes (evs : List SysEv) : List Int :=
  evs.filterMap fun e =>
    match e with
    | SysEv.tick now => some now
    | SysEv.span _ => none
    | SysEv.exitSig => none

/-- The basic health predicate of the rotation structure: the current index
is one of the two slots and the current slot holds a bucket. -/
def Concentrator.Good (c : Concentrator) : Prop :=
  (c.currentBucket = 0 ∨ c.currentBucket = 1) ∧
    c.openBucket c.currentBucket ≠ none

/-- Abstract view of the rotation state: the time the open window began, the
spans absorbed since then, and the buckets emitted so far. -/
structure RotView where
  lastT : Int
  pending : List Span
  emitted : List StatsBucket
deriving DecidableEq, Repr

/-- The bucket that a rotation at time `now` closes and emits, according to
the (amended) spec description: window began at `lastT`, Duration stamped to
`now - lastT`, contents the pending spans, encoded. -/
def closedBucket (eps lastT now : Int) (pending : List Span) : StatsBucket :=
  { start := lastT, duration := some (now - lastT), spans := pending
    encoded := true, eps := eps }

/-- Specification-level step, following the spec's description of the
rotation lifecycle with its drain clause amended to what the code does: a
span joins the open window; a rotation at time `now` closes the open window,
emits it encoded, and opens a fresh window at `now`; the exit signal emits
nothing. -/
def specStep (eps : Int) (r : RotView) : SysEv → RotView
  | SysEv.span s => { r with pending := r.pending ++ [s] }
  | SysEv.tick now =>
      { lastT := now, pending := []
        emitted := r.emitted ++ [closedBucket eps r.lastT now r.pending] }
  | SysEv.exitSig => r

/-- Specification-level execution. -/
def specRun (eps : Int) (r : RotView) : List SysEv → RotView
  | [] => r
  | e :: es => specRun eps (specStep eps r e) es

/-- Simulation relation: the concrete Concentrator is in the rotation state
described by the view `r`; `base` is whatever was already on the outStats
log before this execution began. -/
def tracks (c : Concentrator) (r : RotView) (base : List StatsBucket) : Prop :=
  (c.currentBucket = 0 ∨ c.currentBucket = 1) ∧
    c.openBucket c.currentBucket =
      some { start := r.lastT, duration := none, spans := r.pending
             encoded := false, eps := c.eps } ∧
    c.outStats.sent = base ++ r.emitted

/-- Program counter of an in-progress flush, used to interleave the
ingestion worker with the four mutation points of flush (allocate at
line 83, stamp at line 87, flip at line 88, send at lines 91-96). -/
inductive FlushPC where
  | idle
  | allocated
  | stamped
  | flipped
deriving DecidableEq, Repr

/-- A Concentrator together with the flush worker's program counter and its
local `nextBucket` variable. -/
structure MState where
  conc : Concentrator
  fpc : FlushPC
  pn : Int

/-- Micro-step: the ingestion worker's HandleSpan against the current slot
(line 78).  A nil pointer would panic; the mutation is recorded only when
the slot is non-nil, and theorem spec_C9 shows the slot never is nil. -/
def mHandle (s : Span) (m : MState) : MState :=
  { m with conc := { m.conc with
      openBucket := updSlot m.conc.openBucket m.conc.currentBucket
        ((m.conc.openBucket m.conc.currentBucket).map (StatsBucket.HandleSpan · s)) } }

/-- Micro-step: lines 82-83 of flush, compute nextBucket and allocate a
fresh bucket there. -/
def mAlloc (now : Int) (m : MState) : MState :=
  let nb := (m.conc.currentBucket + 1) % 2
  { conc := { m.conc with
      openBucket := updSlot m.conc.openBucket nb (some (NewStatsBucket m.conc.eps now)) }
    fpc := FlushPC.allocated
    pn := nb }

/-- Micro-step: line 87 of flush, stamp the current bucket's Duration. -/
def mStamp (now : Int) (m : MState) : MState :=
  { m with
      conc := { m.conc with
        openBucket := updSlot m.conc.openBucket m.conc.currentBucket
          ((m.conc.openBucket m.conc.currentBucket).map (stampDuration now)) }
      fpc := FlushPC.stamped }

/-- Micro-step: line 88 of flush, flip the current index to nextBucket. -/
def mFlip (m : MState) : MState :=
  { m with conc := { m.conc with currentBucket := m.pn }, fpc := FlushPC.flipped }

/-- Micro-step: lines 91-96 of flush, encode and send the other slot's
bucket when non-nil. -/
def mSend (m : MState) : MState :=
  let c := m.conc
  let bucketToSend := (c.currentBucket + 1) % 2
  match c.openBucket bucketToSend with
  | none => { m with fpc := FlushPC.idle }
  | some bs =>
      { m with
          conc := { c with
            openBucket := updSlot c.openBucket bucketToSend (some bs.Encode)
            outStats := { c.outStats with sent := c.outStats.sent ++ [bs.Encode] } }
          fpc := FlushPC.idle }

/-- Interleaved small-step relation: a span may be handled at any instant;
the single flush worker advances through its four mutation points in
program order. -/
inductive MStep : MState → MState → Prop
  | handle (s : Span) (m : MState) : MStep m (mHandle s m)
  | alloc (now : Int) (m : MState) : m.fpc = FlushPC.idle → MStep m (mAlloc now m)
  | stamp (now : Int) (m : MState) : m.fpc = FlushPC.allocated → MStep m (mStamp now m)
  | flip (m : MState) : m.fpc = FlushPC.stamped → MStep m (mFlip m)
  | send (m : MState) : m.fpc = FlushPC.flipped → MStep m (mSend m)

/-- Reachability in the interleaved semantics. -/
def MReach (m0 m : MState) : Prop := Relation.ReflTransGen MStep m0 m

/-- Inductive invariant of the interleaved semantics: the current index is a
real slot holding a bucket, and between the allocation and the flip the
local nextBucket names the other slot, already holding the fresh bucket. -/
def MInv (m : MState) : Prop :=
  (m.conc.currentBucket = 0 ∨ m.conc.currentBucket = 1) ∧
    m.conc.openBucket m.conc.currentBucket ≠ none ∧
    ((m.fpc = FlushPC.allocated ∨ m.fpc = FlushPC.stamped) →
      m.pn = (m.conc.currentBucket + 1) % 2 ∧ m.conc.openBucket m.pn ≠ none)

/-- Program counter of the bucketCloser worker for the shutdown-join model:
before the Add(1) at line 101, inside the select loop, or returned. -/
inductive CloserPC where
  | beforeAdd
  | looping
  | returned
deriving DecidableEq, Repr

/-- The shutdown-coordination state: the bucketCloser worker's position, the
shared WaitGroup counter, whether the exit signal has been sent, whether the
outbound span channel has been closed, and whether a caller's Wait on the
group has returned. -/
structure ShutState where
  closerPC : CloserPC
  wg : Int
  exitSent : Bool
  outSpansClosed : Bool
  waitReturned : Bool
deriving DecidableEq, Repr

/-- Interleaved shutdown semantics.  The bucketCloser goroutine executes
exitGroup.Add(1) as its first action (line 101) and, once the exit signal
has been sent, the exit case of its select (close the outbound span
channel, Done, return; lines 105-113).  The host may send the exit signal
at any time and a caller's exitGroup.Wait() returns whenever the counter is
zero, which is Go's WaitGroup semantics. -/
inductive ShutStep : ShutState → ShutState → Prop
  | add (s : ShutState) : s.closerPC = CloserPC.beforeAdd →
      ShutStep s { s with closerPC := CloserPC.looping, wg := s.wg + 1 }
  | signal (s : ShutState) :
      ShutStep s { s with exitSent := true }
  | handleExit (s : ShutState) : s.closerPC = CloserPC.looping → s.exitSent = true →
      ShutStep s { s with outSpansClosed := true, wg := s.wg - 1
                          closerPC := CloserPC.returned }
  | wait (s : ShutState) : s.exitSent = true → s.wg = 0 →
      ShutStep s { s with waitReturned := true }

/-- The shutdown state right after Start has launched the bucketCloser
goroutine: the goroutine has not yet run its Add(1), the counter is zero
as far as this component is concerned, nothing has happened yet. -/
def shutStart : ShutState :=
  { closerPC := CloserPC.beforeAdd, wg := 0, exitSent := false
    outSpansClosed := false, waitReturned := false }

/-- Reachability of the shutdown semantics from the post-Start state. -/
def ShutReach (s : ShutState) : Prop := Relation.ReflTransGen ShutStep shutStart s

/-- The interleaved-semantics state right after Start: slot 0 holds the
manually allocated first bucket, the flush worker is idle. -/
def mStart (bd eps t0 : Int) : MState :=
  { conc := (mkInit bd eps).Start t0, fpc := FlushPC.idle, pn := 0 }

/-- The shutdown state exhibiting the WaitGroup race: the exit signal has
been sent and a caller's Wait has returned, yet the bucketCloser goroutine
has not run (its Add(1) is still pending) and the outbound span channel is
still open. -/
def shutViolation : ShutState :=
  { closerPC := CloserPC.beforeAdd, wg := 0, exitSent := true
    outSpansClosed := false, waitReturned := true }

lemma updSlot_self (f : Int → Option StatsBucket) (i : Int) (v : Option StatsBucket) :
    updSlot f i v i = v := by
  simp [updSlot]

lemma updSlot_other (f : Int → Option StatsBucket) (i : Int) (v : Option StatsBucket)
    (j : Int) (h : j ≠ i) : updSlot f i v j = f j := by
  simp [updSlot, h]

lemma ne_next (i : Int) (h01 : i = 0 ∨ i = 1) : (i + 1) % 2 ≠ i := by
  rcases h01 with h | h <;> rw [h] <;> decide

lemma next_next (i : Int) (h01 : i = 0 ∨ i = 1) : ((i + 1) % 2 + 1) % 2 = i := by
  rcases h01 with h | h <;> rw [h] <;> decide

lemma next_mem (i : Int) (h01 : i = 0 ∨ i = 1) : (i + 1) % 2 = 0 ∨ (i + 1) % 2 = 1 := by
  rcases h01 with h | h <;> rw [h] <;> decide

/-- What one flush does, as a single record: allocate the fresh bucket into
the next slot, stamp the outgoing bucket, flip the index, encode the
just-stamped bucket in place and append it to the outStats log. -/
lemma flush_spec (c : Concentrator) (now : Int) (b : StatsBucket)
    (h01 : c.currentBucket = 0 ∨ c.currentBucket = 1)
    (hb : c.openBucket c.currentBucket = some b) :
    c.flush now = some { c with
      openBucket := updSlot
        (updSlot
          (updSlot c.openBucket ((c.currentBucket + 1) % 2) (some (NewStatsBucket c.eps now)))
          c.currentBucket (some (stampDuration now b)))
        c.currentBucket (some (stampDuration now b).Encode)
      currentBucket := (c.currentBucket + 1) % 2
      outStats := { c.outStats with
        sent := c.outStats.sent ++ [(stampDuration now b).Encode] } } := by
  rcases h01 with h | h
  · rw [h] at hb ⊢
    simp [Concentrator.flush, updSlot, hb, h]
  · rw [h] at hb ⊢
    simp [Concentrator.flush, updSlot, hb, h]

/-- Projection form of `flush_spec`. -/
lemma flush_parts (c : Concentrator) (now : Int) (b : StatsBucket)
    (h01 : c.currentBucket = 0 ∨ c.currentBucket = 1)
    (hb : c.openBucket c.currentBucket = some b) :
    ∃ c', c.flush now = some c' ∧
      c'.currentBucket = (c.currentBucket + 1) % 2 ∧
      c'.openBucket c'.currentBucket = some (NewStatsBucket c.eps now) ∧
      c'.openBucket c.currentBucket = some (stampDuration now b).Encode ∧
      c'.outStats.sent = c.outStats.sent ++ [(stampDuration now b).Encode] ∧
      c'.outStats.closed = c.outStats.closed ∧
      c'.outSpans = c.outSpans ∧
      c'.inSpans = c.inSpans ∧
      c'.eps = c.eps ∧
      c'.exitGroup = c.exitGroup ∧
      c'.exit = c.exit ∧
      c'.bucketDuration = c.bucketDuration := by
  refine ⟨_, flush_spec c now b h01 hb, rfl, ?_, ?_, rfl, rfl, rfl, rfl, rfl, rfl, rfl, rfl⟩
  · show updSlot _ c.currentBucket _ ((c.currentBucket + 1) % 2) = _
    rw [updSlot_other _ _ _ _ (ne_next _ h01), updSlot_other _ _ _ _ (ne_next _ h01),
      updSlot_self]
  · show updSlot _ c.currentBucket _ c.currentBucket = _
    rw [updSlot_self]

/-- One rotation, seen through the simulation relation: the tracked open
window is closed at `now`, emitted encoded, and a fresh window opens. -/
lemma flush_tracks (c : Concentrator) (now : Int) (r : RotView) (base : List StatsBucket)
    (h : tracks c r base) :
    ∃ c', c.flush now = some c' ∧
      tracks c'
        { lastT := now, pending := []
          emitted := r.emitted ++ [closedBucket c.eps r.lastT now r.pending] } base ∧
      c'.eps = c.eps ∧ c'.outStats.closed = c.outStats.closed ∧
      c'.outSpans = c.outSpans ∧ c'.exitGroup = c.exitGroup ∧ c'.inSpans = c.inSpans := by
  obtain ⟨h01, hb, hsent⟩ := h
  obtain ⟨c', hfl, hcur, hfresh, hold, hsent', hcl, hsp, hin, heps, hg, hx, hbd⟩ :=
    flush_parts c now _ h01 hb
  refine ⟨c', hfl, ⟨?_, ?_, ?_⟩, heps, hcl, hsp, hg, hin⟩
  · rw [hcur]; exact next_mem _ h01
  · rw [hfresh, heps]; rfl
  · rw [hsent', hsent, List.append_assoc]; rfl

/-- One ingested span, seen through the simulation relation: it joins the
open window and is forwarded verbatim on the outbound span channel. -/
lemma ingestOne_tracks (c : Concentrator) (s : Span) (r : RotView) (base : List StatsBucket)
    (h : tracks c r base) :
    ∃ c', c.ingestOne s = some c' ∧
      tracks c' { r with pending := r.pending ++ [s] } base ∧
      c'.eps = c.eps ∧ c'.outStats = c.outStats ∧
      c'.outSpans.sent = c.outSpans.sent ++ [s] ∧
      c'.outSpans.closed = c.outSpans.closed ∧
      c'.exitGroup = c.exitGroup ∧ c'.inSpans = c.inSpans := by
  obtain ⟨h01, hb, hsent⟩ := h
  refine ⟨{ c with
      openBucket := updSlot c.openBucket c.currentBucket
        (some (StatsBucket.HandleSpan
          { start := r.lastT, duration := none, spans := r.pending
            encoded := false, eps := c.eps } s))
      outSpans := { c.outSpans with sent := c.outSpans.sent ++ [s] } },
    ?_, ⟨h01, ?_, hsent⟩, rfl, rfl, rfl, rfl, rfl, rfl⟩
  · show (c.HandleNewSpan s).map _ = _
    unfold Concentrator.HandleNewSpan
    rw [hb]
    rfl
  · show updSlot _ c.currentBucket _ c.currentBucket = _
    rw [updSlot_self]
    rfl

/-- The exit case of bucketCloser leaves the rotation state and the outStats
log untouched. -/
lemma closerExit_tracks (c : Concentrator) (r : RotView) (base : List StatsBucket)
    (h : tracks c r base) : tracks c.closerExit r base :=
  ⟨h.1, h.2.1, h.2.2⟩

/-- Simulation of a whole execution: the concrete Concentrator follows the
specification-level rotation model step for step. -/
lemma sysRun_tracks (evs : List SysEv) (c : Concentrator) (r : RotView)
    (base : List StatsBucket) (h : tracks c r base) :
    ∃ c', c.sysRun evs = some c' ∧ tracks c' (specRun c.eps r evs) base ∧ c'.eps = c.eps := by
  induction evs generalizing c r with
  | nil => exact ⟨c, rfl, h, rfl⟩
  | cons e es ih =>
      cases e with
      | span s =>
          obtain ⟨c₁, hstep, htr, heps, -, -, -, -, -⟩ := ingestOne_tracks c s r base h
          obtain ⟨c', hrun, htr', heps'⟩ := ih c₁ _ htr
          refine ⟨c', ?_, ?_, heps'.trans heps⟩
          · show (c.ingestOne s).bind _ = _
            rw [hstep, Option.some_bind, hrun]
          · rw [show specRun c.eps r (SysEv.span s :: es) =
              specRun c.eps { r with pending := r.pending ++ [s] } es from rfl]
            rw [← heps]
            exact htr'
      | tick now =>
          obtain ⟨c₁, hstep, htr, heps, -, -, -, -⟩ := flush_tracks c now r base h
          obtain ⟨c', hrun, htr', heps'⟩ := ih c₁ _ htr
          refine ⟨c', ?_, ?_, heps'.trans heps⟩
          · show (c.flush now).bind _ = _
            rw [hstep, Option.some_bind, hrun]
          · have hspec : specRun c.eps r (SysEv.tick now :: es) =
              specRun c.eps ⟨now, [], r.emitted ++ [closedBucket c.eps r.lastT now r.pending]⟩ es := rfl
            rw [hspec]
            nth_rewrite 1 [← heps]
            exact htr'
      | exitSig =>
          obtain ⟨c', hrun, htr', heps'⟩ := ih c.closerExit r (closerExit_tracks c r base h)
          exact ⟨c', hrun, htr', heps'⟩

/-- The state right after Init and Start tracks the empty rotation view. -/
lemma tracks_start (bd eps t0 : Int) :
    tracks ((mkInit bd eps).Start t0) { lastT := t0, pending := [], emitted := [] } [] := by
  exact ⟨Or.inl rfl, rfl, rfl⟩

lemma tickTimes_span (s : Span) (es : List SysEv) :
    tickTimes (SysEv.span s :: es) = tickTimes es := rfl

lemma tickTimes_tick (now : Int) (es : List SysEv) :
    tickTimes (SysEv.tick now :: es) = now :: tickTimes es := rfl

lemma tickTimes_exit (es : List SysEv) :
    tickTimes (SysEv.exitSig :: es) = tickTimes es := rfl

/-- The start and Duration of every emitted bucket, read off the
specification-level model: the i-th emitted bucket spans from the i-th
rotation's predecessor time to the i-th rotation time. -/
lemma specRun_pairs (eps : Int) (evs : List SysEv) (r : RotView) :
    (specRun eps r evs).emitted.map (fun b => (b.start, b.duration)) =
      r.emitted.map (fun b => (b.start, b.duration)) ++
        (List.zip (r.lastT :: tickTimes evs) (tickTimes evs)).map
          (fun p => (p.1, some (p.2 - p.1))) := by
  induction evs generalizing r with
  | nil => simp [specRun, tickTimes]
  | cons e es ih =>
      cases e with
      | span s =>
          rw [tickTimes_span]
          exact ih { r with pending := r.pending ++ [s] }
      | tick now =>
          rw [tickTimes_tick, List.zip_cons_cons, List.map_cons]
          have hspec : specRun eps r (SysEv.tick now :: es) =
            specRun eps ⟨now, [], r.emitted ++ [closedBucket eps r.lastT now r.pending]⟩ es := rfl
          rw [hspec, ih]
          simp [closedBucket]
      | exitSig =>
          rw [tickTimes_exit]
          exact ih r

/-- Emitted-bucket count: one bucket per rotation. -/
lemma specRun_length (eps : Int) (evs : List SysEv) (r : RotView) (h : r.emitted = []) :
    (specRun eps r evs).emitted.length = (tickTimes evs).length := by
  have hp := specRun_pairs eps evs r
  have := congrArg List.length hp
  simp only [List.length_map, List.length_append, h, List.length_nil, List.length_zip,
    List.length_cons] at this
  omega

/-- Sortedness and closedness of the emitted buckets: window starts are
strictly increasing along the emission order when rotation times are, and
every emitted bucket has its Duration stamped. -/
lemma specRun_facts (eps : Int) (evs : List SysEv) (r : RotView)
    (hP : r.emitted.Pairwise (fun a b => a.start < b.start))
    (hLt : ∀ b ∈ r.emitted, b.start < r.lastT)
    (hD : ∀ b ∈ r.emitted, b.duration ≠ none)
    (hC : List.Chain (· < ·) r.lastT (tickTimes evs)) :
    (specRun eps r evs).emitted.Pairwise (fun a b => a.start < b.start) ∧
      ∀ b ∈ (specRun eps r evs).emitted, b.duration ≠ none := by
  induction evs generalizing r with
  | nil => exact ⟨hP, hD⟩
  | cons e es ih =>
      cases e with
      | span s =>
          rw [tickTimes_span] at hC
          exact ih { r with pending := r.pending ++ [s] } hP hLt hD hC
      | tick now =>
          rw [tickTimes_tick, List.chain_cons] at hC
          have hspec : specRun eps r (SysEv.tick now :: es) =
            specRun eps ⟨now, [], r.emitted ++ [closedBucket eps r.lastT now r.pending]⟩ es := rfl
          rw [hspec]
          refine ih _ ?_ ?_ ?_ hC.2
          · refine List.pairwise_append.mpr ⟨hP, List.pairwise_singleton _ _, ?_⟩
            intro a ha b hb
            rw [List.mem_singleton] at hb
            subst hb
            exact hLt a ha
          · intro b hb
            rcases List.mem_append.mp hb with hb | hb
            · exact lt_trans (hLt b hb) hC.1
            · rw [List.mem_singleton] at hb
              subst hb
              exact hC.1
          · intro b hb
            rcases List.mem_append.mp hb with hb | hb
            · exact hD b hb
            · rw [List.mem_singleton] at hb
              subst hb
              simp [closedBucket]
      | exitSig =>
          rw [tickTimes_exit] at hC
          exact ih r hP hLt hD hC

/-- flush keeps the rotation structure healthy and touches neither the
channels' closed flags, the outbound span channel, nor the exit group. -/
lemma flush_good (c : Concentrator) (now : Int) (h : c.Good) :
    ∃ c', c.flush now = some c' ∧ c'.Good ∧
      c'.outStats.closed = c.outStats.closed ∧ c'.outSpans = c.outSpans ∧
      c'.exitGroup = c.exitGroup ∧ c'.inSpans = c.inSpans := by
  obtain ⟨h01, hne⟩ := h
  obtain ⟨b, hb⟩ := Option.ne_none_iff_exists'.mp hne
  obtain ⟨c', hfl, hcur, hfresh, -, -, hcl, hsp, hin, -, hg, -, -⟩ :=
    flush_parts c now b h01 hb
  refine ⟨c', hfl, ⟨?_, ?_⟩, hcl, hsp, hg, hin⟩
  · rw [hcur]; exact next_mem _ h01
  · rw [hfresh]; simp

lemma runTicks_good (ts : List Int) (c : Concentrator) (h : c.Good) :
    ∃ c', c.runTicks ts = some c' ∧ c'.Good ∧
      c'.outStats.closed = c.outStats.closed ∧ c'.outSpans = c.outSpans ∧
      c'.exitGroup = c.exitGroup ∧ c'.inSpans = c.inSpans := by
  induction ts generalizing c with
  | nil => exact ⟨c, rfl, h, rfl, rfl, rfl, rfl⟩
  | cons t ts ih =>
      obtain ⟨c₁, h1, hg1, hcl1, hsp1, hwg1, hin1⟩ := flush_good c t h
      obtain ⟨c', h2, hg2, hcl2, hsp2, hwg2, hin2⟩ := ih c₁ hg1
      refine ⟨c', ?_, hg2, hcl2.trans hcl1, hsp2.trans hsp1, hwg2.trans hwg1,
        hin2.trans hin1⟩
      show (c.flush t).bind _ = _
      rw [h1, Option.some_bind, h2]

/-- The bucketCloser select loop on a tick prefix followed by the exit
signal: it runs exactly the ticks, then the exit case, then returns without
looking at anything after the exit signal. -/
lemma closerLoop_split (ts : List Int) (rest : List CloserEv) (c : Concentrator)
    (h : c.Good) :
    ∃ cmid, c.runTicks ts = some cmid ∧
      c.bucketCloserLoop (List.map CloserEv.tick ts ++ CloserEv.exitSig :: rest) =
        some cmid.closerExit := by
  induction ts generalizing c with
  | nil => exact ⟨c, rfl, rfl⟩
  | cons t ts ih =>
      obtain ⟨c₁, h1, hg1, -, -, -, -⟩ := flush_good c t h
      obtain ⟨cmid, h2, h3⟩ := ih c₁ hg1
      refine ⟨cmid, ?_, ?_⟩
      · show (c.flush t).bind _ = _
        rw [h1, Option.some_bind, h2]
      · show (c.flush t).bind _ = _
        rw [h1, Option.some_bind]
        exact h3

/-- Whatever flush does, it never touches the closed flags, the outbound
span channel, the exit group, the inbound channel, or the exit flag. -/
lemma flush_preserves {c c' : Concentrator} {now : Int} (h : c.flush now = some c') :
    c'.outStats.closed = c.outStats.closed ∧ c'.outSpans = c.outSpans ∧
      c'.exitGroup = c.exitGroup ∧ c'.inSpans = c.inSpans ∧ c'.exit = c.exit := by
  simp only [Concentrator.flush] at h
  obtain ⟨b, hb, hf⟩ := Option.bind_eq_some.mp h
  have hc' := Option.some.inj hf
  subst hc'
  refine ⟨?_, ?_, ?_, ?_, ?_⟩ <;> (split <;> rfl)

lemma handleNewSpan_preserves {c c' : Concentrator} {s : Span}
    (h : c.HandleNewSpan s = some c') :
    c'.outStats = c.outStats ∧ c'.outSpans = c.outSpans ∧ c'.exitGroup = c.exitGroup := by
  unfold Concentrator.HandleNewSpan at h
  cases hb : c.openBucket c.currentBucket with
  | none => rw [hb] at h; exact Option.noConfusion h
  | some b =>
      rw [hb] at h
      have hc' := Option.some.inj h
      subst hc'
      exact ⟨rfl, rfl, rfl⟩

lemma ingestOne_preserves {c c' : Concentrator} {s : Span}
    (h : c.ingestOne s = some c') :
    c'.outStats = c.outStats ∧ c'.outSpans.closed = c.outSpans.closed ∧
      c'.exitGroup = c.exitGroup := by
  unfold Concentrator.ingestOne at h
  obtain ⟨c₁, h1, h2⟩ := Option.map_eq_some'.mp h
  obtain ⟨ho, hsp, hg⟩ := handleNewSpan_preserves h1
  subst h2
  refine ⟨ho, ?_, hg⟩
  show c₁.outSpans.closed = c.outSpans.closed
  rw [hsp]

lemma sysStep_closed {c c' : Concentrator} {e : SysEv} (h : c.sysStep e = some c') :
    c'.outStats.closed = c.outStats.closed := by
  cases e with
  | span s =>
      have hst : c'.outStats = c.outStats := (ingestOne_preserves h).1
      rw [hst]
  | tick now => exact (flush_preserves h).1
  | exitSig =>
      have hc' := Option.some.inj h
      subst hc'
      rfl

/-- No step of a whole-system execution ever closes the outbound stats
channel. -/
lemma sysRun_closed {evs : List SysEv} {c c' : Concentrator}
    (h : c.sysRun evs = some c') :
    c'.outStats.closed = c.outStats.closed := by
  induction evs generalizing c with
  | nil =>
      have hc' := Option.some.inj h
      subst hc'
      rfl
  | cons e es ih =>
      obtain ⟨c₁, h1, h2⟩ := Option.bind_eq_some.mp h
      exact (ih h2).trans (sysStep_closed h1)

lemma closerLoop_closed {evs : List CloserEv} {c c' : Concentrator}
    (h : c.bucketCloserLoop evs = some c') :
    c'.outStats.closed = c.outStats.closed := by
  induction evs generalizing c with
  | nil =>
      have hc' := Option.some.inj h
      subst hc'
      rfl
  | cons e es ih =>
      cases e with
      | tick now =>
          obtain ⟨c₁, h1, h2⟩ := Option.bind_eq_some.mp h
          exact (ih h2).trans (flush_preserves h1).1
      | exitSig =>
          have hc' := Option.some.inj h
          subst hc'
          rfl

lemma mHandle_inv (s : Span) (m : MState) (h : MInv m) : MInv (mHandle s m) := by
  obtain ⟨h01, hcur, hpend⟩ := h
  refine ⟨h01, ?_, ?_⟩
  · show updSlot _ m.conc.currentBucket _ m.conc.currentBucket ≠ none
    rw [updSlot_self]
    cases hb : m.conc.openBucket m.conc.currentBucket with
    | none => exact absurd hb hcur
    | some b => simp [hb]
  · intro hf
    obtain ⟨hpn, hslot⟩ := hpend hf
    refine ⟨hpn, ?_⟩
    show updSlot _ m.conc.currentBucket _ m.pn ≠ none
    rw [updSlot_other _ _ _ _ (by rw [hpn]; exact ne_next _ h01)]
    exact hslot

lemma mAlloc_inv (now : Int) (m : MState) (h : MInv m) : MInv (mAlloc now m) := by
  obtain ⟨h01, hcur, -⟩ := h
  refine ⟨h01, ?_, ?_⟩
  · show updSlot _ ((m.conc.currentBucket + 1) % 2) _ m.conc.currentBucket ≠ none
    rw [updSlot_other _ _ _ _ (Ne.symm (ne_next _ h01))]
    exact hcur
  · intro _
    refine ⟨rfl, ?_⟩
    show updSlot _ ((m.conc.currentBucket + 1) % 2) _ ((m.conc.currentBucket + 1) % 2) ≠ none
    rw [updSlot_self]
    simp

lemma mStamp_inv (now : Int) (m : MState) (hf : m.fpc = FlushPC.allocated)
    (h : MInv m) : MInv (mStamp now m) := by
  obtain ⟨h01, hcur, hpend⟩ := h
  obtain ⟨hpn, hslot⟩ := hpend (Or.inl hf)
  refine ⟨h01, ?_, ?_⟩
  · show updSlot _ m.conc.currentBucket _ m.conc.currentBucket ≠ none
    rw [updSlot_self]
    cases hb : m.conc.openBucket m.conc.currentBucket with
    | none => exact absurd hb hcur
    | some b => simp [hb]
  · intro _
    refine ⟨hpn, ?_⟩
    show updSlot _ m.conc.currentBucket _ m.pn ≠ none
    rw [updSlot_other _ _ _ _ (by rw [hpn]; exact ne_next _ h01)]
    exact hslot

lemma mFlip_inv (m : MState) (hf : m.fpc = FlushPC.stamped) (h : MInv m) :
    MInv (mFlip m) := by
  obtain ⟨h01, hcur, hpend⟩ := h
  obtain ⟨hpn, hslot⟩ := hpend (Or.inr hf)
  refine ⟨?_, hslot, ?_⟩
  · show m.pn = 0 ∨ m.pn = 1
    rw [hpn]
    exact next_mem _ h01
  · intro hx
    rcases hx with hx | hx <;> simp [mFlip] at hx

lemma mSend_inv (m : MState) (h : MInv m) : MInv (mSend m) := by
  obtain ⟨h01, hcur, -⟩ := h
  simp only [mSend]
  cases hb : m.conc.openBucket ((m.conc.currentBucket + 1) % 2) with
  | none =>
      refine ⟨h01, hcur, ?_⟩
      intro hx
      rcases hx with hx | hx <;> simp at hx
  | some bs =>
      refine ⟨h01, ?_, ?_⟩
      · show updSlot _ ((m.conc.currentBucket + 1) % 2) _ m.conc.currentBucket ≠ none
        rw [updSlot_other _ _ _ _ (Ne.symm (ne_next _ h01))]
        exact hcur
      · intro hx
        rcases hx with hx | hx <;> simp at hx

/-- The interleaving invariant is preserved by every micro-step. -/
lemma mstep_inv {m m' : MState} (hs : MStep m m') (h : MInv m) : MInv m' := by
  cases hs with
  | handle s _ => exact mHandle_inv s _ h
  | alloc now _ hf => exact mAlloc_inv now _ h
  | stamp now _ hf => exact mStamp_inv now _ hf h
  | flip _ hf => exact mFlip_inv _ hf h
  | send _ hf => exact mSend_inv _ h

lemma mreach_inv {m0 m : MState} (h0 : MInv m0) (h : MReach m0 m) : MInv m := by
  induction h with
  | refl => exact h0
  | tail _ hs ih => exact mstep_inv hs ih

lemma mStart_inv (bd eps t0 : Int) : MInv (mStart bd eps t0) := by
  refine ⟨Or.inl rfl, ?_, ?_⟩
  · simp [mStart, mkInit, Concentrator.Start, NewConcentrator, Concentrator.Init, updSlot]
  · intro hx
    rcases hx with hx | hx <;> simp [mStart] at hx


/-- C1 counterexample: the claim says that on the very first rotation after
Start no stats bucket is emitted (the drain slot being empty).  On the
concrete input below, Start at time 0 followed by a single rotation at
time 2 emits one bucket, so the emission step is not skipped. -/
theorem spec_C1_cex :
    (((mkInit 2 0).Start 0).flush 2).map (fun c => c.outStats.sent) =
      some [{ start := 0, duration := some 2, spans := [], encoded := true, eps := 0 }] := by
  decide

/-- C1 (amended): on the very first rotation after Start, the slot examined
for draining holds the bucket that Start allocated into slot 0, freshly
stamped — it is non-nil, so exactly one stats bucket is encoded and emitted;
the emission step is not skipped. -/
theorem spec_C1 (bd eps t0 t1 : Int) :
    ∃ c', ((mkInit bd eps).Start t0).flush t1 = some c' ∧
      c'.outStats.sent = [closedBucket eps t0 t1 []] ∧
      c'.outStats.sent ≠ [] := by
  obtain ⟨c', hfl, htr, heps, -, -, -, -⟩ :=
    flush_tracks ((mkInit bd eps).Start t0) t1 ⟨t0, [], []⟩ [] (tracks_start bd eps t0)
  have hsent : c'.outStats.sent = [closedBucket eps t0 t1 []] := htr.2.2
  refine ⟨c', hfl, hsent, ?_⟩
  rw [hsent]
  exact List.cons_ne_nil _ _

/-- C2 counterexample: the claim says that k rotations emit exactly k-1
buckets, the i-th with Duration R(i+1)-R(i).  With Start at 0 and rotations
at times 2 and 10, the code emits two buckets (not one), and the first
emitted bucket has Duration 2 = R1 - Start (not 8 = R2 - R1). -/
theorem spec_C2_cex :
    (((mkInit 2 0).Start 0).sysRun [SysEv.tick 2, SysEv.tick 10]).map
        (fun c => c.outStats.sent.map fun b => (b.start, b.duration)) =
      some [((0 : Int), some (2 : Int)), (2, some 8)] := by
  decide

/-- C2 (amended): for every execution with rotations R1..Rk, exactly k
buckets are emitted; the i-th emitted bucket is the bucket that was open
during R(i) (it is emitted at R(i) itself, not one rotation later), and its
Duration equals R(i) - R(i-1), where R(0) is the Start time; emission order
is FIFO matching rotation order. -/
theorem spec_C2 (bd eps t0 : Int) (evs : List SysEv) :
    ∃ c', ((mkInit bd eps).Start t0).sysRun evs = some c' ∧
      c'.outStats.sent = (specRun eps ⟨t0, [], []⟩ evs).emitted ∧
      c'.outStats.sent.length = (tickTimes evs).length ∧
      c'.outStats.sent.map (fun b => (b.start, b.duration)) =
        (List.zip (t0 :: tickTimes evs) (tickTimes evs)).map
          (fun p => (p.1, some (p.2 - p.1))) := by
  obtain ⟨c', hrun, htr, heps⟩ :=
    sysRun_tracks evs ((mkInit bd eps).Start t0) ⟨t0, [], []⟩ [] (tracks_start bd eps t0)
  have hsent : c'.outStats.sent = (specRun eps ⟨t0, [], []⟩ evs).emitted := htr.2.2
  refine ⟨c', hrun, hsent, ?_, ?_⟩
  · rw [hsent]
    exact specRun_length eps evs ⟨t0, [], []⟩ rfl
  · rw [hsent]
    have hp := specRun_pairs eps evs ⟨t0, [], []⟩
    simpa using hp

/-- C3 counterexample: the claim says the slot drained after the flip holds
the bucket finalized one rotation ago.  On the very first rotation after
Start (time 10, rotation at 17) no bucket was finalized one rotation ago,
yet the drained slot holds the bucket finalized in this very rotation
(Duration 7 stamped at this rotation), which is emitted. -/
theorem spec_C3_cex :
    (((mkInit 4 3).Start 10).flush 17).map (fun c => c.outStats.sent) =
      some [{ start := 10, duration := some 7, spans := [], encoded := true, eps := 3 }] := by
  decide

/-- C3 (amended): each rotation performs, in order: allocate a fresh
StatsBucket into slot (current+1) mod 2; stamp the outgoing current bucket
Duration = now - Start; flip the current index to the newly allocated slot;
then the other slot — which holds the bucket finalized in THIS rotation,
hence non-empty — is encoded via Encode() and emitted on the outbound stats
channel. -/
theorem spec_C3 (c : Concentrator) (now : Int) (b : StatsBucket)
    (h01 : c.currentBucket = 0 ∨ c.currentBucket = 1)
    (hb : c.openBucket c.currentBucket = some b) :
    ∃ c', c.flush now = some c' ∧
      c'.currentBucket = (c.currentBucket + 1) % 2 ∧
      c'.openBucket c'.currentBucket = some (NewStatsBucket c.eps now) ∧
      c'.openBucket c.currentBucket = some (stampDuration now b).Encode ∧
      c'.outStats.sent = c.outStats.sent ++ [(stampDuration now b).Encode] := by
  obtain ⟨c', hfl, h1, h2, h3, h4, -, -, -, -, -, -, -⟩ := flush_parts c now b h01 hb
  exact ⟨c', hfl, h1, h2, h3, h4⟩

/-- Witness for spec_C3 at a concrete input. -/
theorem spec_C3_witness :
    (((mkInit 4 3).Start 10).currentBucket = 0 ∨ ((mkInit 4 3).Start 10).currentBucket = 1) ∧
    ((mkInit 4 3).Start 10).openBucket ((mkInit 4 3).Start 10).currentBucket =
      some { start := 10, duration := none, spans := [], encoded := false, eps := 3 } ∧
    ∃ c', ((mkInit 4 3).Start 10).flush 17 = some c' ∧
      c'.currentBucket = (((mkInit 4 3).Start 10).currentBucket + 1) % 2 ∧
      c'.openBucket c'.currentBucket = some (NewStatsBucket ((mkInit 4 3).Start 10).eps 17) ∧
      c'.openBucket ((mkInit 4 3).Start 10).currentBucket =
        some (stampDuration 17
          { start := 10, duration := none, spans := [], encoded := false, eps := 3 }).Encode ∧
      c'.outStats.sent = ((mkInit 4 3).Start 10).outStats.sent ++
        [(stampDuration 17
          { start := 10, duration := none, spans := [], encoded := false, eps := 3 }).Encode] :=
  ⟨Or.inl rfl, by decide,
    spec_C3 ((mkInit 4 3).Start 10) 17
      { start := 10, duration := none, spans := [], encoded := false, eps := 3 }
      (Or.inl rfl) (by decide)⟩

/-- C4: every bucket sent on the outbound stats channel has had its Duration
stamped before being sent, is no longer the current write target once sent
(the current slot always holds a still-open bucket, never an emitted one),
and no bucket is ever sent twice (under strictly increasing rotation times
the emitted buckets are pairwise distinct). -/
theorem spec_C4 (bd eps t0 : Int) (evs : List SysEv)
    (hC : List.Chain (fun a b => a < b) t0 (tickTimes evs)) :
    ∃ c', ((mkInit bd eps).Start t0).sysRun evs = some c' ∧
      (∀ b ∈ c'.outStats.sent, b.duration ≠ none) ∧
      c'.outStats.sent.Nodup ∧
      ∀ b ∈ c'.outStats.sent, c'.openBucket c'.currentBucket ≠ some b := by
  obtain ⟨c', hrun, htr, heps⟩ :=
    sysRun_tracks evs ((mkInit bd eps).Start t0) ⟨t0, [], []⟩ [] (tracks_start bd eps t0)
  have hsent : c'.outStats.sent = (specRun eps ⟨t0, [], []⟩ evs).emitted := htr.2.2
  have hfacts := specRun_facts eps evs ⟨t0, [], []⟩ List.Pairwise.nil (by simp) (by simp) hC
  refine ⟨c', hrun, ?_, ?_, ?_⟩
  · rw [hsent]
    exact hfacts.2
  · rw [hsent]
    have hne : ∀ {a b : StatsBucket}, a.start < b.start → a ≠ b := by
      intro a b hlt heq
      rw [heq] at hlt
      exact lt_irrefl _ hlt
    exact List.Pairwise.imp hne hfacts.1
  · intro b hb heq
    rw [htr.2.1] at heq
    have hbval := Option.some.inj heq
    have hd : b.duration = none := by rw [← hbval]
    exact hfacts.2 b (hsent ▸ hb) hd

/-- Witness for spec_C4 at a concrete input. -/
theorem spec_C4_witness :
    List.Chain (fun a b => a < b) 0 (tickTimes [SysEv.tick 1]) ∧
    ∃ c', ((mkInit 1 0).Start 0).sysRun [SysEv.tick 1] = some c' ∧
      (∀ b ∈ c'.outStats.sent, b.duration ≠ none) ∧
      c'.outStats.sent.Nodup ∧
      ∀ b ∈ c'.outStats.sent, c'.openBucket c'.currentBucket ≠ some b :=
  ⟨List.Chain.cons (by decide) List.Chain.nil,
    spec_C4 1 0 0 [SysEv.tick 1] (List.Chain.cons (by decide) List.Chain.nil)⟩

/-- C5: when the exit signal fires, the FlushScheduler performs no final
rotation or flush (the outStats log, the bucket slots and the current index
are untouched by the exit step), closes the outbound span channel exactly
once (no tick ever closed it before), signals completion to the shutdown
coordinator (Done on the exit group, which the ticks never touched), and
returns (events after the exit signal are never processed). -/
theorem spec_C5 (c : Concentrator) (ts : List Int) (rest : List CloserEv) (h : c.Good) :
    ∃ cmid, c.closerAdd.runTicks ts = some cmid ∧
      c.bucketCloser (List.map CloserEv.tick ts ++ CloserEv.exitSig :: rest) =
        some cmid.closerExit ∧
      cmid.closerExit.outStats.sent = cmid.outStats.sent ∧
      cmid.closerExit.openBucket = cmid.openBucket ∧
      cmid.closerExit.currentBucket = cmid.currentBucket ∧
      cmid.closerExit.outSpans.sent = cmid.outSpans.sent ∧
      cmid.closerExit.outSpans.closed = true ∧
      cmid.closerExit.exitGroup = cmid.exitGroup - 1 ∧
      cmid.closerExit.outStats.closed = cmid.outStats.closed ∧
      cmid.outSpans = c.outSpans ∧
      cmid.outStats.closed = c.outStats.closed ∧
      cmid.exitGroup = c.closerAdd.exitGroup := by
  have hg : c.closerAdd.Good := ⟨h.1, h.2⟩
  obtain ⟨cmid, h1, h2⟩ := closerLoop_split ts rest c.closerAdd hg
  obtain ⟨cmid2, h1x, hgood, hcl, hsp, hwg, -⟩ := runTicks_good ts c.closerAdd hg
  rw [h1] at h1x
  have hmid := Option.some.inj h1x
  subst hmid
  exact ⟨cmid, h1, h2, rfl, rfl, rfl, rfl, rfl, rfl, rfl, hsp, hcl, hwg⟩

/-- Witness for spec_C5 at a concrete input. -/
theorem spec_C5_witness :
    ((mkInit 1 0).Start 0).Good ∧
    ∃ cmid, ((mkInit 1 0).Start 0).closerAdd.runTicks [1] = some cmid ∧
      ((mkInit 1 0).Start 0).bucketCloser
          (List.map CloserEv.tick [1] ++ CloserEv.exitSig :: [CloserEv.tick 9]) =
        some cmid.closerExit ∧
      cmid.closerExit.outStats.sent = cmid.outStats.sent ∧
      cmid.closerExit.openBucket = cmid.openBucket ∧
      cmid.closerExit.currentBucket = cmid.currentBucket ∧
      cmid.closerExit.outSpans.sent = cmid.outSpans.sent ∧
      cmid.closerExit.outSpans.closed = true ∧
      cmid.closerExit.exitGroup = cmid.exitGroup - 1 ∧
      cmid.closerExit.outStats.closed = cmid.outStats.closed ∧
      cmid.outSpans = ((mkInit 1 0).Start 0).outSpans ∧
      cmid.outStats.closed = ((mkInit 1 0).Start 0).outStats.closed ∧
      cmid.exitGroup = ((mkInit 1 0).Start 0).closerAdd.exitGroup :=
  ⟨⟨Or.inl rfl, by decide⟩,
    spec_C5 ((mkInit 1 0).Start 0) [1] [CloserEv.tick 9] ⟨Or.inl rfl, by decide⟩⟩

/-- C6: the Ingestor routes every span received from the inbound channel
into the currently-active bucket via HandleSpan and forwards the identical
span on the outbound span channel, preserving arrival order; it terminates
cleanly when the inbound list ends, never closes the outbound span channel,
and never touches the outbound stats channel. -/
theorem spec_C6 (c : Concentrator) (b : StatsBucket) (spans : List Span)
    (hb : c.openBucket c.currentBucket = some b) :
    ∃ c', c.ingestLoop spans = some c' ∧
      c'.outSpans.sent = c.outSpans.sent ++ spans ∧
      c'.outSpans.closed = c.outSpans.closed ∧
      c'.currentBucket = c.currentBucket ∧
      c'.openBucket c'.currentBucket = some (spans.foldl StatsBucket.HandleSpan b) ∧
      c'.outStats = c.outStats := by
  induction spans generalizing c b with
  | nil => exact ⟨c, rfl, by simp, rfl, rfl, hb, rfl⟩
  | cons s rest ih =>
      have hstep : c.ingestOne s = some { c with
          openBucket := updSlot c.openBucket c.currentBucket (some (b.HandleSpan s))
          outSpans := { c.outSpans with sent := c.outSpans.sent ++ [s] } } := by
        unfold Concentrator.ingestOne Concentrator.HandleNewSpan
        rw [hb]
        rfl
      have hb2 : ({ c with
          openBucket := updSlot c.openBucket c.currentBucket (some (b.HandleSpan s))
          outSpans := { c.outSpans with sent := c.outSpans.sent ++ [s] } } :
            Concentrator).openBucket ({ c with
          openBucket := updSlot c.openBucket c.currentBucket (some (b.HandleSpan s))
          outSpans := { c.outSpans with sent := c.outSpans.sent ++ [s] } } :
            Concentrator).currentBucket = some (b.HandleSpan s) := by
        show updSlot _ c.currentBucket _ c.currentBucket = _
        rw [updSlot_self]
      obtain ⟨c', hrun, hsent, hcl, hcur, hslot, hstats⟩ := ih _ (b.HandleSpan s) hb2
      refine ⟨c', ?_, ?_, hcl, hcur, hslot, hstats⟩
      · show (c.ingestOne s).bind _ = _
        rw [hstep, Option.some_bind]
        exact hrun
      · rw [hsent]
        simp

/-- Witness for spec_C6 at a concrete input. -/
theorem spec_C6_witness :
    ((mkInit 1 5).Start 0).openBucket ((mkInit 1 5).Start 0).currentBucket =
      some { start := 0, duration := none, spans := [], encoded := false, eps := 5 } ∧
    ∃ c', ((mkInit 1 5).Start 0).ingestLoop [3, 4] = some c' ∧
      c'.outSpans.sent = ((mkInit 1 5).Start 0).outSpans.sent ++ [3, 4] ∧
      c'.outSpans.closed = ((mkInit 1 5).Start 0).outSpans.closed ∧
      c'.currentBucket = ((mkInit 1 5).Start 0).currentBucket ∧
      c'.openBucket c'.currentBucket =
        some (List.foldl StatsBucket.HandleSpan
          { start := 0, duration := none, spans := [], encoded := false, eps := 5 } [3, 4]) ∧
      c'.outStats = ((mkInit 1 5).Start 0).outStats :=
  ⟨by decide,
    spec_C6 ((mkInit 1 5).Start 0)
      { start := 0, duration := none, spans := [], encoded := false, eps := 5 } [3, 4]
      (by decide)⟩

/-- C7: the claim says a caller blocked on the shared exit wait group is
released only after the FlushScheduler has fully exited, for every
interleaving of Start, the exit signal and the caller's Wait.  The code puts
exitGroup.Add(1) inside the bucketCloser goroutine (line 101), so there is
an interleaving — exit signalled and Wait called before the goroutine has
run — in which Wait returns with the counter still zero while the outbound
span channel is still open: the state shutViolation is reachable and has
waitReturned true but outSpansClosed false. -/
theorem spec_C7 :
    ShutReach shutViolation ∧ shutViolation.waitReturned = true ∧
      shutViolation.outSpansClosed = false ∧
      shutViolation.closerPC = CloserPC.beforeAdd := by
  refine ⟨?_, rfl, rfl, rfl⟩
  have h1 : ShutStep shutStart { shutStart with exitSent := true } :=
    ShutStep.signal shutStart
  have h2 : ShutStep { shutStart with exitSent := true } shutViolation :=
    ShutStep.wait { shutStart with exitSent := true } rfl rfl
  exact Relation.ReflTransGen.head h1
    (Relation.ReflTransGen.head h2 Relation.ReflTransGen.refl)

/-- C8: no operation of the Concentrator ever closes the outbound stats
channel: any whole-system execution from Start (spans, ticks, exit) and any
bucketCloser run leave the outStats closed flag exactly as it was. -/
theorem spec_C8 (c : Concentrator) (t0 : Int) (evs : List SysEv)
    (cevs : List CloserEv) :
    Option.elim ((c.Start t0).sysRun evs) True
        (fun x => x.outStats.closed = c.outStats.closed) ∧
      Option.elim (c.bucketCloser cevs) True
        (fun x => x.outStats.closed = c.outStats.closed) := by
  constructor
  · cases hrun : (c.Start t0).sysRun evs with
    | none => trivial
    | some c' => exact @sysRun_closed evs (c.Start t0) c' hrun
  · cases hrun : c.bucketCloser cevs with
    | none => trivial
    | some c' => exact @closerLoop_closed cevs c.closerAdd c' hrun

/-- C9: after Start has run, in every interleaving of HandleNewSpan calls
with the micro-steps of a flush, the current index is always 0 or 1 and the
current slot always holds a bucket (flush allocates the fresh bucket into
the next slot before flipping the index), so HandleNewSpan never
dereferences a nil bucket pointer. -/
theorem spec_C9 (bd eps t0 : Int) (m : MState)
    (h : MReach (mStart bd eps t0) m) :
    (m.conc.currentBucket = 0 ∨ m.conc.currentBucket = 1) ∧
      m.conc.openBucket m.conc.currentBucket ≠ none ∧
      ∀ s : Span, m.conc.HandleNewSpan s ≠ none := by
  obtain ⟨h01, hcur, -⟩ := mreach_inv (mStart_inv bd eps t0) h
  refine ⟨h01, hcur, ?_⟩
  intro s
  unfold Concentrator.HandleNewSpan
  cases hb : m.conc.openBucket m.conc.currentBucket with
  | none => exact absurd hb hcur
  | some b => simp

/-- Witness for spec_C9 at a concrete input. -/
theorem spec_C9_witness :
    ((mStart 2 1 0).conc.currentBucket = 0 ∨ (mStart 2 1 0).conc.currentBucket = 1) ∧
      (mStart 2 1 0).conc.openBucket (mStart 2 1 0).conc.currentBucket ≠ none ∧
      ∀ s : Span, (mStart 2 1 0).conc.HandleNewSpan s ≠ none :=
  spec_C9 2 1 0 (mStart 2 1 0) Relation.ReflTransGen.refl

/-- C10: Init assigns exactly the three channel fields and leaves every
other field of the Concentrator unchanged; in particular it allocates no
bucket (openBucket is untouched) and moves no other state. -/
theorem spec_C10 (c : Concentrator) (a : List Span) (os : Chan StatsBucket)
    (op : Chan Span) :
    (c.Init a os op).inSpans = a ∧
      (c.Init a os op).outStats = os ∧
      (c.Init a os op).outSpans = op ∧
      (c.Init a os op).bucketDuration = c.bucketDuration ∧
      (c.Init a os op).eps = c.eps ∧
      (c.Init a os op).exit = c.exit ∧
      (c.Init a os op).exitGroup = c.exitGroup ∧
      (c.Init a os op).openBucket = c.openBucket ∧
      (c.Init a os op).currentBucket = c.currentBucket :=
  ⟨rfl, rfl, rfl, rfl, rfl, rfl, rfl, rfl, rfl⟩

end Raclette
